import Mathlib

/-!
Verification of the xg2g audio remuxing transcoder.

This file gives a shallow embedding of the transcoder core (TS demuxing,
PES reassembly, AAC encoding with ADTS framing, AC-3 downmix, and TS
multiplexing) and proves properties of the embedded functions.

Conventions of the embedding:
* Rust machine integers are modelled as Nat; wrapping casts such as
  `as u8` and `as u16` appear as explicit `% 256`, `&&& 0xFF`, `% 65536`
  mirroring the truncation at the place where the source performs it.
* Byte buffers (`Vec<u8>`, `[u8; 188]`) are `List Nat`.
* PCM samples (`f32`) are modelled as rationals; IEEE rounding is
  abstracted away, decimal literals of the source are taken exactly.
* Fallible functions (`anyhow::Result`) return `Except String`.
* The external codec libraries (symphonia, ac-ffmpeg) are not part of the
  repository; where the pipeline calls into them the embedding abstracts
  the codec output as an explicit argument or as a function parameter.
-/

set_option maxHeartbeats 1600000

namespace Transcoder

/-! ### Arithmetic helpers for the bitwise byte manipulations -/

/-- Masking with a shifted mask commutes with shifting the value. -/
theorem and_shiftLeft_mask (a m k : Nat) :
    a &&& (m <<< k) = ((a >>> k) &&& m) <<< k := by
  apply Nat.eq_of_testBit_eq
  intro i
  simp only [Nat.testBit_and, Nat.testBit_shiftLeft, Nat.testBit_shiftRight]
  by_cases h : k ≤ i
  · have : k + (i - k) = i := by omega
    simp [h, this]
  · simp [h]

/-- Shifting right distributes over bitwise or. -/
theorem or_shiftRight (a b k : Nat) :
    (a ||| b) >>> k = (a >>> k) ||| (b >>> k) := by
  apply Nat.eq_of_testBit_eq
  intro i
  simp [Nat.testBit_or, Nat.testBit_shiftRight]

/-- Bitwise or with a low part below a power of two is addition. -/
theorem or_eq_add_of_lt (a b k : Nat) (hb : b < 2 ^ k) :
    (a * 2 ^ k) ||| b = a * 2 ^ k + b := by
  rw [mul_comm]
  exact (Nat.mul_add_lt_is_or hb a).symm

/-! ### Demultiplexer (src/transcoder/src/demux.rs) -/

/-- MPEG-TS packet size in bytes (`TS_PACKET_SIZE`). -/
def TS_PACKET_SIZE : Nat := 188

/-- Maximum PES packet size (`MAX_PES_SIZE`, 1 MiB). -/
def MAX_PES_SIZE : Nat := 1024 * 1024

/-- Audio codec variants (`AudioCodec`). -/
inductive AudioCodec
| Mp2
| Ac3
| Aac
| Unknown
deriving DecidableEq, Repr

/-- Codec detection from the PMT stream type byte (`AudioCodec::from_stream_type`). -/
def AudioCodec.from_stream_type (stream_type : Nat) : AudioCodec :=
  if stream_type = 0x03 ∨ stream_type = 0x04 then .Mp2
  else if stream_type = 0x81 then .Ac3
  else if stream_type = 0x0F then .Aac
  else .Unknown

/-- Parsed MPEG-TS packet (`TsPacket`), as handed to the PES reassembler. -/
structure TsPacket where
  pid : Nat
  payload_start : Bool
  transport_error : Bool
  priority : Bool
  scrambling : Nat
  has_adaptation : Bool
  has_payload : Bool
  continuity : Nat
  payload : List Nat
deriving DecidableEq, Repr

/-- PES reassembly buffer (`PesBuffer`). -/
structure PesBuffer where
  data : List Nat
  expected_continuity : Nat
  pes_length : Nat
  started : Bool
deriving DecidableEq, Repr

/-- Fresh PES buffer (`PesBuffer::new`). -/
def PesBuffer.new : PesBuffer :=
  { data := [], expected_continuity := 0, started := false, pes_length := 0 }

/-- Buffer reset (`PesBuffer::reset`): clears data, started and the
declared length, but keeps the expected continuity counter. -/
def PesBuffer.reset (b : PesBuffer) : PesBuffer :=
  { b with data := [], started := false, pes_length := 0 }

/-- PES reassembly step (`PesBuffer::add_payload`).  Returns the updated
buffer together with a complete PES payload when one is ready. -/
def PesBuffer.add_payload (b : PesBuffer) (packet : TsPacket) :
    Except String (PesBuffer × Option (List Nat)) :=
  -- continuity check: on a mismatch the buffer resets and nothing is emitted
  if b.started ∧ packet.continuity ≠ b.expected_continuity then
    .ok (b.reset, none)
  else
    let b := { b with expected_continuity := (packet.continuity + 1) &&& 0x0F }
    -- payload unit start: discard any partial PES and parse the header
    let hdr : Except String PesBuffer :=
      if packet.payload_start then
        let b := b.reset
        if packet.payload.length < 6 then
          .error ("PES header too short")
        else if packet.payload.getD 0 0 ≠ 0x00 ∨ packet.payload.getD 1 0 ≠ 0x00 ∨
            packet.payload.getD 2 0 ≠ 0x01 then
          .error ("Invalid PES start code")
        else
          let pes_length := ((packet.payload.getD 4 0) <<< 8) ||| packet.payload.getD 5 0
          .ok { b with
            pes_length := if pes_length = 0 then MAX_PES_SIZE else pes_length + 6,
            started := true }
      else
        .ok b
    match hdr with
    | .error e => .error e
    | .ok b =>
      -- append the payload and test for overflow and for completion
      if b.started ∧ packet.payload ≠ [] then
        let b := { b with data := b.data ++ packet.payload }
        if b.data.length > MAX_PES_SIZE then
          .ok (b.reset, none)
        else if b.data.length ≥ b.pes_length then
          .ok (b.reset, some b.data)
        else
          .ok (b, none)
      else
        .ok (b, none)

/-! ### Claims C7 and C8: PES reassembly behaviour -/

/-- Claim C7: for any reassembly state with started=true, a packet whose
continuity counter differs from the expected value resets the buffer and
yields no PES; afterwards a packet with PUSI=1 and a valid PES start code
begins a fresh PES normally (yielding immediately only when its payload
already reaches the declared length). -/
theorem claim_C7 (b : PesBuffer) (packet : TsPacket)
    (hstart : b.started = true)
    (hcc : packet.continuity ≠ b.expected_continuity) :
    b.add_payload packet = .ok (b.reset, none) ∧
    (∀ (b2 : PesBuffer) (p2 : TsPacket), b2.started = false →
      p2.payload_start = true →
      6 ≤ p2.payload.length → p2.payload.length ≤ MAX_PES_SIZE →
      p2.payload.getD 0 0 = 0x00 → p2.payload.getD 1 0 = 0x00 →
      p2.payload.getD 2 0 = 0x01 →
      (∃ b' y, b2.add_payload p2 = .ok (b', y) ∧
        ((y = some p2.payload ∧ b'.started = false) ∨
         (y = none ∧ b'.started = true ∧ b'.data = p2.payload)))) := by
  constructor
  · simp [PesBuffer.add_payload, hstart, hcc, pure, Except.pure]
  · intro b2 p2 h2 hpusi hlen hmax h0 h1 h2c
    have hne : p2.payload ≠ [] := by
      intro h
      rw [h] at hlen
      simp at hlen
    simp only [List.getD, List.get?_eq_getElem?] at h0 h1 h2c
    set lf := ((p2.payload.getD 4 0) <<< 8) ||| p2.payload.getD 5 0 with hlf
    simp only [List.getD, List.get?_eq_getElem?] at hlf
    by_cases hdone :
        (if lf = 0 then MAX_PES_SIZE else lf + 6) ≤ p2.payload.length
    · refine ⟨PesBuffer.mk [] ((p2.continuity + 1) &&& 0x0F) 0 false,
          some p2.payload, ?_, Or.inl ⟨rfl, rfl⟩⟩
      simp [PesBuffer.add_payload, PesBuffer.reset, h2, hpusi, hne, h0, h1, h2c,
        Nat.not_lt.mpr hlen, Nat.not_lt.mpr hmax, ← hlf, hdone, pure, Except.pure]
    · refine ⟨PesBuffer.mk p2.payload ((p2.continuity + 1) &&& 0x0F)
          (if lf = 0 then MAX_PES_SIZE else lf + 6) true,
          none, ?_, Or.inr ⟨rfl, rfl, rfl⟩⟩
      simp [PesBuffer.add_payload, PesBuffer.reset, h2, hpusi, hne, h0, h1, h2c,
        Nat.not_lt.mpr hlen, Nat.not_lt.mpr hmax, ← hlf, hdone, pure, Except.pure]

/-- Witness for claim C7 at a concrete buffer and concrete packets: a
continuity jump from expected 6 to 9 resets the buffer, and a following
PUSI packet with a valid start code completes a 38-byte PES at once. -/
theorem claim_C7_witness :
    (PesBuffer.mk [1, 2] 6 100 true).add_payload
        (TsPacket.mk 257 false false false 0 false true 9 [5, 5]) =
      .ok ((PesBuffer.mk [1, 2] 6 100 true).reset, none) ∧
    (∃ b' y, (PesBuffer.mk [] 6 0 false).add_payload
        (TsPacket.mk 257 true false false 0 false true 10
          ([0x00, 0x00, 0x01, 0xC0, 0x00, 0x20] ++ List.replicate 32 7)) =
        .ok (b', y) ∧
      ((y = some ([0x00, 0x00, 0x01, 0xC0, 0x00, 0x20] ++ List.replicate 32 7) ∧
          b'.started = false) ∨
       (y = none ∧ b'.started = true ∧
          b'.data = [0x00, 0x00, 0x01, 0xC0, 0x00, 0x20] ++ List.replicate 32 7))) := by
  have h := claim_C7 (PesBuffer.mk [1, 2] 6 100 true)
      (TsPacket.mk 257 false false false 0 false true 9 [5, 5]) rfl (by decide)
  exact ⟨h.1, h.2 (PesBuffer.mk [] 6 0 false)
      (TsPacket.mk 257 true false false 0 false true 10
        ([0x00, 0x00, 0x01, 0xC0, 0x00, 0x20] ++ List.replicate 32 7))
      rfl rfl (by decide) (by decide) (by decide) (by decide) (by decide)⟩

/-- Claim C8: on a PUSI=1 audio packet the declared PES length is computed
as 1 MiB when the 16-bit length field is 0 and as len+6 otherwise; the
reassembler yields the accumulated bytes exactly when the accumulated size
first reaches the declared length, and resets without yielding whenever
the accumulated size exceeds 1 MiB. -/
theorem claim_C8 :
    (∀ (b : PesBuffer) (p : TsPacket),
      p.payload_start = true →
      (b.started = true → p.continuity = b.expected_continuity) →
      6 ≤ p.payload.length → p.payload.length ≤ MAX_PES_SIZE →
      p.payload.getD 0 0 = 0x00 → p.payload.getD 1 0 = 0x00 →
      p.payload.getD 2 0 = 0x01 →
      b.add_payload p =
        (let lenField := ((p.payload.getD 4 0) <<< 8) ||| p.payload.getD 5 0
         let declared := if lenField = 0 then MAX_PES_SIZE else lenField + 6
         if declared ≤ p.payload.length then
           .ok (PesBuffer.mk [] ((p.continuity + 1) &&& 0x0F) 0 false,
             some p.payload)
         else
           .ok (PesBuffer.mk p.payload ((p.continuity + 1) &&& 0x0F) declared true,
             none))) ∧
    (∀ (b : PesBuffer) (p : TsPacket),
      b.started = true → p.payload_start = false →
      p.continuity = b.expected_continuity → p.payload ≠ [] →
      b.add_payload p =
        (let acc := b.data ++ p.payload
         if MAX_PES_SIZE < acc.length then
           .ok (PesBuffer.mk [] ((p.continuity + 1) &&& 0x0F) 0 false, none)
         else if b.pes_length ≤ acc.length then
           .ok (PesBuffer.mk [] ((p.continuity + 1) &&& 0x0F) 0 false, some acc)
         else
           .ok (PesBuffer.mk acc ((p.continuity + 1) &&& 0x0F) b.pes_length true,
             none))) := by
  constructor
  · intro b p hpusi hcc hlen hmax h0 h1 h2c
    have hne : p.payload ≠ [] := by
      intro h
      rw [h] at hlen
      simp at hlen
    have hccF : ¬(b.started = true ∧ p.continuity ≠ b.expected_continuity) := by
      rintro ⟨hs, hbad⟩
      exact hbad (hcc hs)
    simp only [List.getD, List.get?_eq_getElem?] at h0 h1 h2c
    set lf := ((p.payload.getD 4 0) <<< 8) ||| p.payload.getD 5 0 with hlf
    simp only [List.getD, List.get?_eq_getElem?] at hlf
    by_cases hdone : (if lf = 0 then MAX_PES_SIZE else lf + 6) ≤ p.payload.length
    · simp [PesBuffer.add_payload, PesBuffer.reset, hccF, hpusi, hne, h0, h1, h2c,
        Nat.not_lt.mpr hlen, Nat.not_lt.mpr hmax, ← hlf, hdone]
    · simp [PesBuffer.add_payload, PesBuffer.reset, hccF, hpusi, hne, h0, h1, h2c,
        Nat.not_lt.mpr hlen, Nat.not_lt.mpr hmax, ← hlf, hdone]
  · intro b p hs hpusi hcc hne
    have hccF : ¬(b.started = true ∧ p.continuity ≠ b.expected_continuity) := by
      rintro ⟨_, hbad⟩
      exact hbad hcc
    by_cases hov : MAX_PES_SIZE < b.data.length + p.payload.length
    · simp [PesBuffer.add_payload, PesBuffer.reset, hccF, hpusi, hs, hne, hov, hcc]
    · by_cases hcomp : b.pes_length ≤ b.data.length + p.payload.length
      · simp [PesBuffer.add_payload, PesBuffer.reset, hccF, hpusi, hs, hne, hov, hcomp, hcc]
      · simp [PesBuffer.add_payload, PesBuffer.reset, hccF, hpusi, hs, hne, hov, hcomp, hcc]

/-- Witness for claim C8: a PUSI packet with length field 0 starts a PES
bounded at 1 MiB, and a continuation packet that reaches the declared
length yields the accumulated bytes and resets. -/
theorem claim_C8_witness :
    (PesBuffer.mk [] 0 0 false).add_payload
        (TsPacket.mk 257 true false false 0 false true 3
          ([0x00, 0x00, 0x01, 0xC0, 0x00, 0x00] ++ List.replicate 10 3)) =
      .ok (PesBuffer.mk ([0x00, 0x00, 0x01, 0xC0, 0x00, 0x00] ++ List.replicate 10 3)
          4 MAX_PES_SIZE true, none) ∧
    (PesBuffer.mk [1, 2, 3] 7 5 true).add_payload
        (TsPacket.mk 257 false false false 0 false true 7 [9, 9]) =
      .ok (PesBuffer.mk [] 8 0 false, some [1, 2, 3, 9, 9]) := by
  have h1 := claim_C8.1 (PesBuffer.mk [] 0 0 false)
      (TsPacket.mk 257 true false false 0 false true 3
        ([0x00, 0x00, 0x01, 0xC0, 0x00, 0x00] ++ List.replicate 10 3))
      rfl (by simp) (by decide) (by decide) (by decide) (by decide) (by decide)
  have h2 := claim_C8.2 (PesBuffer.mk [1, 2, 3] 7 5 true)
      (TsPacket.mk 257 false false false 0 false true 7 [9, 9])
      rfl rfl rfl (by decide)
  exact ⟨h1.trans (by rfl), h2.trans (by rfl)⟩

/-! ### Multiplexer (src/transcoder/src/muxer.rs) -/

/-- Muxer configuration (`TsMuxerConfig`). -/
structure TsMuxerConfig where
  audio_pid : Nat
  video_pid : Nat
  pcr_pid : Nat
  pmt_pid : Nat
  transport_stream_id : Nat
  program_number : Nat
deriving DecidableEq, Repr

/-- Default configuration (`TsMuxerConfig::default`). -/
def TsMuxerConfig.default : TsMuxerConfig :=
  { audio_pid := 0x0101, video_pid := 0x0100, pcr_pid := 0x0100,
    pmt_pid := 0x1000, transport_stream_id := 1, program_number := 1 }

/-- Muxer state (`TsMuxer`). -/
structure TsMuxer where
  config : TsMuxerConfig
  audio_continuity : Nat
  video_continuity : Nat
  pat_continuity : Nat
  pmt_continuity : Nat
  pcr : Nat
  packets_muxed : Nat
  psi_interval : Nat
deriving DecidableEq, Repr

/-- Muxer constructor (`TsMuxer::new`): all counters zero, PSI interval 40. -/
def TsMuxer.new (config : TsMuxerConfig) : TsMuxer :=
  { config := config, audio_continuity := 0, video_continuity := 0,
    pat_continuity := 0, pmt_continuity := 0, pcr := 0,
    packets_muxed := 0, psi_interval := 40 }

/-- PES timestamp encoder (`TsMuxer::write_timestamp`), 5 bytes pushed to
the PES buffer; `as u8` casts appear as `% 256` or masks, as in the source. -/
def write_timestamp (pfx : Nat) (ts : Nat) : List Nat :=
  [((pfx <<< 4) % 256) ||| (((ts >>> 29) % 256) &&& 0x0E) ||| 0x01,
   (ts >>> 22) &&& 0xFF,
   ((ts >>> 14) &&& 0xFE) ||| 0x01,
   (ts >>> 7) &&& 0xFF,
   ((ts <<< 1) &&& 0xFE) ||| 0x01]

/-- PES packet builder (`TsMuxer::create_pes_packet`).  The source pushes
the bytes one after another into a vector; the list below is that vector. -/
def create_pes_packet (data : List Nat) (pts dts : Nat) : List Nat :=
  let header_len := 13
  let pes_length := (data.length + header_len - 6) % 65536
  [0x00, 0x00, 0x01,
   0xC0,
   (pes_length >>> 8) % 256, pes_length &&& 0xFF,
   0x84,
   0xC0,
   10]
  ++ write_timestamp 0x03 pts
  ++ write_timestamp 0x01 dts
  ++ data

/-- One 188-byte data packet of `TsMuxer::create_ts_packets`: the source
fills a 188-byte array with 0xFF, writes the 4 header bytes and copies the
payload chunk at offset 4, which equals this concatenation. -/
def ts_data_packet (pid : Nat) (first : Bool) (cc : Nat) (chunk : List Nat) :
    List Nat :=
  [0x47,
   (if first then 0x40 else 0x00) ||| ((pid >>> 8) &&& 0x1F),
   pid &&& 0xFF,
   0x10 ||| cc]
  ++ chunk ++ List.replicate (184 - chunk.length) 0xFF

/-- Fragmentation loop of `TsMuxer::create_ts_packets`: consumes the PES
byte vector in chunks of 184 bytes, threading the continuity counter.
The while loop is modelled with an explicit fuel argument, always
instantiated with the length of the byte vector, which strictly bounds
the number of iterations since every iteration consumes at least one
byte.  Returns the final counter and the emitted packets. -/
def create_ts_packets_go (pid : Nat) (first : Bool) (cc : Nat)
    (fuel : Nat) (pes_data : List Nat) : Nat × List (List Nat) :=
  match fuel, pes_data with
  | _, [] => (cc, [])
  | 0, _ => (cc, [])
  | fuel + 1, pes_data =>
    let chunk := pes_data.take 184
    let packet := ts_data_packet pid first cc chunk
    let rest := create_ts_packets_go pid false ((cc + 1) &&& 0x0F) fuel
      (pes_data.drop 184)
    (rest.1, packet :: rest.2)

/-- PES fragmentation (`TsMuxer::create_ts_packets`): picks the audio or
the video continuity counter according to `is_audio`. -/
def TsMuxer.create_ts_packets (m : TsMuxer) (pes_data : List Nat) (pid : Nat)
    (is_audio : Bool) : TsMuxer × List (List Nat) :=
  if is_audio then
    let r := create_ts_packets_go pid true m.audio_continuity pes_data.length pes_data
    ({ m with audio_continuity := r.1 }, r.2)
  else
    let r := create_ts_packets_go pid true m.video_continuity pes_data.length pes_data
    ({ m with video_continuity := r.1 }, r.2)

/-- PAT generation (`TsMuxer::generate_pat`): a 188-byte packet, written
byte by byte into an 0xFF-filled array at consecutive offsets 0..20. -/
def TsMuxer.generate_pat (m : TsMuxer) : TsMuxer × List Nat :=
  let packet :=
    [0x47,
     0x40,
     0x00,
     0x10 ||| m.pat_continuity,
     0x00,
     0x00,
     0xB0 ||| (13 >>> 8), 13 &&& 0xFF,
     (m.config.transport_stream_id >>> 8) % 256,
     m.config.transport_stream_id &&& 0xFF,
     0xC1,
     0x00,
     0x00,
     (m.config.program_number >>> 8) % 256,
     m.config.program_number &&& 0xFF,
     0xE0 ||| ((m.config.pmt_pid >>> 8) % 256),
     m.config.pmt_pid &&& 0xFF,
     0x00, 0x00, 0x00, 0x00]
    ++ List.replicate 167 0xFF
  ({ m with pat_continuity := (m.pat_continuity + 1) &&& 0x0F }, packet)

/-- PMT generation (`TsMuxer::generate_pmt`): a 188-byte packet, written
byte by byte into an 0xFF-filled array at consecutive offsets 0..30. -/
def TsMuxer.generate_pmt (m : TsMuxer) : TsMuxer × List Nat :=
  let packet :=
    [0x47,
     0x40 ||| ((m.config.pmt_pid >>> 8) &&& 0x1F),
     m.config.pmt_pid &&& 0xFF,
     0x10 ||| m.pmt_continuity,
     0x00,
     0x02,
     0xB0 ||| (18 >>> 8), 18 &&& 0xFF,
     (m.config.program_number >>> 8) % 256,
     m.config.program_number &&& 0xFF,
     0xC1,
     0x00,
     0x00,
     0xE0 ||| ((m.config.pcr_pid >>> 8) % 256),
     m.config.pcr_pid &&& 0xFF,
     0xF0, 0x00,
     0x1B,
     0xE0 ||| ((m.config.video_pid >>> 8) % 256),
     m.config.video_pid &&& 0xFF,
     0xF0, 0x00,
     0x0F,
     0xE0 ||| ((m.config.audio_pid >>> 8) % 256),
     m.config.audio_pid &&& 0xFF,
     0xF0, 0x00,
     0x00, 0x00, 0x00, 0x00]
    ++ List.replicate 157 0xFF
  ({ m with pmt_continuity := (m.pmt_continuity + 1) &&& 0x0F }, packet)

/-- Audio muxing entry point (`TsMuxer::mux_audio`): regenerates PSI when
the packets-muxed counter is divisible by the PSI interval, builds one
PES from the AAC data, fragments it, and counts all emitted packets. -/
def TsMuxer.mux_audio (m : TsMuxer) (aac_data : List Nat) (pts dts : Nat) :
    TsMuxer × List (List Nat) :=
  let psi : TsMuxer × List (List Nat) :=
    if m.packets_muxed % m.psi_interval = 0 then
      let r1 := m.generate_pat
      let r2 := r1.1.generate_pmt
      (r2.1, [r1.2, r2.2])
    else
      (m, [])
  let pes_data := create_pes_packet aac_data pts dts
  let r := psi.1.create_ts_packets pes_data psi.1.config.audio_pid true
  let packets := psi.2 ++ r.2
  ({ r.1 with packets_muxed := r.1.packets_muxed + packets.length }, packets)

/-- Video passthrough (`TsMuxer::passthrough_video`): rewrites only the
continuity nibble of byte 3 and advances the video counter. -/
def TsMuxer.passthrough_video (m : TsMuxer) (packet : List Nat) :
    TsMuxer × List Nat :=
  let output := packet.set 3 ((packet.getD 3 0 &&& 0xF0) ||| m.video_continuity)
  let next := { m with
    video_continuity := (m.video_continuity + 1) &&& 0x0F,
    packets_muxed := m.packets_muxed + 1 }
  (next, output)

/-- PID of an emitted TS packet, read from header bytes 1-2 exactly as the
demultiplexer parses it (`TsPacket::parse`). -/
def pid_of_packet (p : List Nat) : Nat :=
  ((p.getD 1 0 &&& 0x1F) <<< 8) ||| p.getD 2 0

/-- Continuity counter of an emitted TS packet (low nibble of byte 3). -/
def cc_of_packet (p : List Nat) : Nat :=
  p.getD 3 0 &&& 0x0F

/-- Payload-unit-start flag of an emitted TS packet (bit 6 of byte 1). -/
def pusi_of_packet (p : List Nat) : Bool :=
  p.getD 1 0 &&& 0x40 ≠ 0

/-! ### Byte-level arithmetic facts about the muxer output -/

/-- Masking with 0xFF is reduction mod 256. -/
theorem and_255 (x : Nat) : x &&& 255 = x % 256 := by
  have h := Nat.and_pow_two_sub_one_eq_mod x 8
  norm_num at h
  exact h

/-- Masking with 0x0F is reduction mod 16. -/
theorem and_15 (x : Nat) : x &&& 15 = x % 16 := by
  have h := Nat.and_pow_two_sub_one_eq_mod x 4
  norm_num at h
  exact h

/-- Masking with 0x07 is reduction mod 8. -/
theorem and_7 (x : Nat) : x &&& 7 = x % 8 := by
  have h := Nat.and_pow_two_sub_one_eq_mod x 3
  norm_num at h
  exact h

/-- Masking with 0x03 is reduction mod 4. -/
theorem and_3 (x : Nat) : x &&& 3 = x % 4 := by
  have h := Nat.and_pow_two_sub_one_eq_mod x 2
  norm_num at h
  exact h

/-- Masking with 0x1F is reduction mod 32. -/
theorem and_31 (x : Nat) : x &&& 31 = x % 32 := by
  have h := Nat.and_pow_two_sub_one_eq_mod x 5
  norm_num at h
  exact h

/-- Masking with 0x7F is reduction mod 128. -/
theorem and_127 (x : Nat) : x &&& 127 = x % 128 := by
  have h := Nat.and_pow_two_sub_one_eq_mod x 7
  norm_num at h
  exact h

/-- Masking with 0x0E keeps bits 1-3. -/
theorem and_14 (x : Nat) : x &&& 14 = x / 2 % 8 * 2 := by
  have h14 : (14 : Nat) = 7 <<< 1 := rfl
  rw [h14, and_shiftLeft_mask, and_7, Nat.shiftLeft_eq, Nat.shiftRight_eq_div_pow]

/-- Masking with 0xFE keeps bits 1-7. -/
theorem and_254 (x : Nat) : x &&& 254 = x / 2 % 128 * 2 := by
  have h : (254 : Nat) = 127 <<< 1 := rfl
  rw [h, and_shiftLeft_mask, and_127, Nat.shiftLeft_eq, Nat.shiftRight_eq_div_pow]

/-- Masking with 0xF0 keeps bits 4-7. -/
theorem and_240 (x : Nat) : x &&& 240 = x / 16 % 16 * 16 := by
  have h : (240 : Nat) = 15 <<< 4 := rfl
  rw [h, and_shiftLeft_mask, and_15, Nat.shiftLeft_eq, Nat.shiftRight_eq_div_pow]

/-- Setting the low marker bit of an even value adds one. -/
theorem or_one_even (x : Nat) : (x * 2) ||| 1 = x * 2 + 1 := by
  have h := or_eq_add_of_lt x 1 1 (by norm_num)
  norm_num at h
  exact h

/-- Or with a nibble below 16 adds it to a multiple of 16. -/
theorem or_nibble (p x : Nat) (hx : x < 16) : (p * 16) ||| x = p * 16 + x := by
  have h := or_eq_add_of_lt p x 4 (by norm_num [hx])
  norm_num at h
  exact h

/-- Canonical arithmetic form of the 5-byte PES timestamp: the prefix
nibble, the three timestamp fields split 3/15/15, and the marker bits. -/
theorem write_timestamp_eq (pfx ts : Nat) (hp : pfx < 16) :
    write_timestamp pfx ts =
      [pfx * 16 + ts / 2 ^ 30 % 8 * 2 + 1,
       ts / 2 ^ 22 % 256,
       ts / 2 ^ 15 % 128 * 2 + 1,
       ts / 2 ^ 7 % 256,
       ts % 128 * 2 + 1] := by
  unfold write_timestamp
  have hq : ts / 2 ^ 30 % 8 < 8 := Nat.mod_lt _ (by norm_num)
  have e0 : ((pfx <<< 4) % 256) ||| (((ts >>> 29) % 256) &&& 0x0E) ||| 0x01 =
      pfx * 16 + ts / 2 ^ 30 % 8 * 2 + 1 := by
    have h1 : (pfx <<< 4) % 256 = pfx * 16 := by
      rw [Nat.shiftLeft_eq]
      have h16 : pfx * 2 ^ 4 = pfx * 16 := by norm_num
      rw [h16, Nat.mod_eq_of_lt (by omega)]
    have h2 : ((ts >>> 29) % 256) &&& 0x0E = ts / 2 ^ 30 % 8 * 2 := by
      rw [Nat.shiftRight_eq_div_pow, and_14]
      norm_num
      omega
    rw [h1, h2]
    have h3 : pfx * 16 ||| ts / 2 ^ 30 % 8 * 2 = pfx * 16 + ts / 2 ^ 30 % 8 * 2 := by
      have h := or_eq_add_of_lt pfx (ts / 2 ^ 30 % 8 * 2) 4 (by omega)
      norm_num at h
      exact h
    rw [h3]
    have heven : pfx * 16 + ts / 2 ^ 30 % 8 * 2 = (pfx * 8 + ts / 2 ^ 30 % 8) * 2 := by
      ring
    rw [heven, or_one_even]
  have e1 : (ts >>> 22) &&& 0xFF = ts / 2 ^ 22 % 256 := by
    rw [Nat.shiftRight_eq_div_pow]
    exact and_255 _
  have e2 : ((ts >>> 14) &&& 0xFE) ||| 0x01 = ts / 2 ^ 15 % 128 * 2 + 1 := by
    have h2 : (ts >>> 14) &&& 0xFE = ts / 2 ^ 15 % 128 * 2 := by
      rw [and_254, Nat.shiftRight_eq_div_pow]
      norm_num
      omega
    rw [h2, or_one_even]
  have e3 : (ts >>> 7) &&& 0xFF = ts / 2 ^ 7 % 256 := by
    rw [Nat.shiftRight_eq_div_pow]
    exact and_255 _
  have e4 : ((ts <<< 1) &&& 0xFE) ||| 0x01 = ts % 128 * 2 + 1 := by
    have h2 : (ts <<< 1) &&& 0xFE = ts % 128 * 2 := by
      rw [and_254, Nat.shiftLeft_eq]
      norm_num
    rw [h2, or_one_even]
  rw [e0, e1, e2, e3, e4]

/-! ### Claim C4: PES packet layout -/

/-- Claim C4: the PES packet built for d data bytes has start code
0x000001 and stream id 0xC0, a length field equal to d + 13 - 6 (the PES
header length is 13), flags bytes 0x84 then 0xC0 (PTS and DTS present),
header data length 10, and PTS/DTS as the canonical 5-byte stamps with
prefix nibbles 0x3 and 0x1, the 33-bit value split 3/15/15, and marker
bits set. -/
theorem claim_C4 (data : List Nat) (pts dts : Nat)
    (hlen : data.length + 7 < 65536) :
    create_pes_packet data pts dts =
      [0x00, 0x00, 0x01, 0xC0,
       (data.length + 7) / 256, (data.length + 7) % 256,
       0x84, 0xC0, 10]
      ++ write_timestamp 0x03 pts ++ write_timestamp 0x01 dts ++ data ∧
    (create_pes_packet data pts dts).getD 4 0 * 256 +
      (create_pes_packet data pts dts).getD 5 0 = data.length + 13 - 6 ∧
    write_timestamp 0x03 pts =
      [3 * 16 + pts / 2 ^ 30 % 8 * 2 + 1, pts / 2 ^ 22 % 256,
       pts / 2 ^ 15 % 128 * 2 + 1, pts / 2 ^ 7 % 256, pts % 128 * 2 + 1] ∧
    write_timestamp 0x01 dts =
      [1 * 16 + dts / 2 ^ 30 % 8 * 2 + 1, dts / 2 ^ 22 % 256,
       dts / 2 ^ 15 % 128 * 2 + 1, dts / 2 ^ 7 % 256, dts % 128 * 2 + 1] := by
  have hm : (data.length + 13 - 6) % 65536 = data.length + 7 := by omega
  have hhi : ((data.length + 7) >>> 8) % 256 = (data.length + 7) / 256 := by
    rw [Nat.shiftRight_eq_div_pow]
    norm_num
    omega
  have hlo : (data.length + 7) &&& 0xFF = (data.length + 7) % 256 := and_255 _
  have hstruct : create_pes_packet data pts dts =
      [0x00, 0x00, 0x01, 0xC0,
       (data.length + 7) / 256, (data.length + 7) % 256,
       0x84, 0xC0, 10]
      ++ write_timestamp 0x03 pts ++ write_timestamp 0x01 dts ++ data := by
    unfold create_pes_packet
    simp only [hm, hhi, hlo]
  refine ⟨hstruct, ?_, write_timestamp_eq 3 pts (by norm_num),
    write_timestamp_eq 1 dts (by norm_num)⟩
  rw [hstruct]
  simp [List.getD_cons_succ, List.getD_cons_zero]
  omega

/-- Witness for claim C4 at one data byte 0xAB and PTS = DTS = 1920. -/
theorem claim_C4_witness :
    create_pes_packet [0xAB] 1920 1920 =
      [0x00, 0x00, 0x01, 0xC0, 0x00, 0x08, 0x84, 0xC0, 10,
       0x31, 0x00, 0x01, 0x0F, 0x01,
       0x11, 0x00, 0x01, 0x0F, 0x01,
       0xAB] ∧
    (create_pes_packet [0xAB] 1920 1920).getD 4 0 * 256 +
      (create_pes_packet [0xAB] 1920 1920).getD 5 0 = 8 := by
  have h := claim_C4 [0xAB] 1920 1920 (by norm_num)
  refine ⟨h.1.trans (by decide), ?_⟩
  have h2 := h.2.1
  simpa using h2

/-! ### Packet projections of the muxer output -/

/-- Low nibble of a PSI or data header byte 3 recovers the counter. -/
theorem psi_cc_nibble (cc : Nat) (h : cc < 16) : (0x10 ||| cc) &&& 0x0F = cc := by
  have h16 : (0x10 : Nat) ||| cc = 1 * 16 + cc := by
    have := or_nibble 1 cc h
    norm_num at this ⊢
    exact this
  rw [h16, and_15]
  omega

/-- PID recovered from a data packet header. -/
theorem ts_data_packet_pid (pid : Nat) (first : Bool) (cc : Nat)
    (chunk : List Nat) (hpid : pid < 8192) :
    pid_of_packet (ts_data_packet pid first cc chunk) = pid := by
  unfold pid_of_packet ts_data_packet
  have h1 : List.getD ([0x47,
      (if first then 0x40 else 0x00) ||| ((pid >>> 8) &&& 0x1F),
      pid &&& 0xFF, 0x10 ||| cc] ++ chunk ++ List.replicate (184 - chunk.length) 0xFF) 1 0 =
      (if first then 0x40 else 0x00) ||| ((pid >>> 8) &&& 0x1F) := by
    cases first <;> rfl
  have h2 : List.getD ([0x47,
      (if first then 0x40 else 0x00) ||| ((pid >>> 8) &&& 0x1F),
      pid &&& 0xFF, 0x10 ||| cc] ++ chunk ++ List.replicate (184 - chunk.length) 0xFF) 2 0 =
      pid &&& 0xFF := by
    cases first <;> rfl
  rw [h1, h2]
  have h3 : ((if first then 0x40 else 0x00) ||| ((pid >>> 8) &&& 0x1F)) &&& 0x1F =
      (pid >>> 8) &&& 0x1F := by
    rw [Nat.and_distrib_right, Nat.and_assoc]
    cases first <;>
      simp [show (64 &&& 31 : Nat) = 0 from rfl, show (31 &&& 31 : Nat) = 31 from rfl]
  rw [h3, and_31, and_255, Nat.shiftRight_eq_div_pow, Nat.shiftLeft_eq]
  have hlt : pid % 256 < 2 ^ 8 := by
    have := Nat.mod_lt pid (y := 256) (by norm_num)
    norm_num
    omega
  have := or_eq_add_of_lt (pid / 2 ^ 8 % 32) (pid % 256) 8 hlt
  norm_num at this ⊢
  omega

/-- Continuity counter recovered from a data packet header. -/
theorem ts_data_packet_cc (pid : Nat) (first : Bool) (cc : Nat)
    (chunk : List Nat) (hcc : cc < 16) :
    cc_of_packet (ts_data_packet pid first cc chunk) = cc := by
  unfold cc_of_packet ts_data_packet
  have h3 : List.getD ([0x47,
      (if first then 0x40 else 0x00) ||| ((pid >>> 8) &&& 0x1F),
      pid &&& 0xFF, 0x10 ||| cc] ++ chunk ++ List.replicate (184 - chunk.length) 0xFF) 3 0 =
      0x10 ||| cc := by
    cases first <;> rfl
  rw [h3]
  exact psi_cc_nibble cc hcc

/-- PUSI flag recovered from a data packet header. -/
theorem ts_data_packet_pusi (pid : Nat) (first : Bool) (cc : Nat)
    (chunk : List Nat) :
    pusi_of_packet (ts_data_packet pid first cc chunk) = first := by
  unfold pusi_of_packet ts_data_packet
  have h1 : List.getD ([0x47,
      (if first then 0x40 else 0x00) ||| ((pid >>> 8) &&& 0x1F),
      pid &&& 0xFF, 0x10 ||| cc] ++ chunk ++ List.replicate (184 - chunk.length) 0xFF) 1 0 =
      (if first then 0x40 else 0x00) ||| ((pid >>> 8) &&& 0x1F) := by
    cases first <;> rfl
  rw [h1]
  have hm : ((pid >>> 8) &&& 0x1F) &&& 0x40 = 0 := by
    have hx : (pid >>> 8) &&& 0x1F < 64 := by
      rw [and_31]
      omega
    have h64 : (0x40 : Nat) = 2 ^ 6 := by norm_num
    rw [h64, Nat.and_two_pow]
    rw [Nat.testBit_lt_two_pow (by norm_num at hx ⊢; omega)]
    rfl
  cases first
  · simp [Nat.and_distrib_right, hm]
  · simp [Nat.and_distrib_right, hm, show (0x40 : Nat) &&& 0x40 = 0x40 from rfl]

/-- Behaviour of the fragmentation loop when the fuel covers the input:
the emitted packets carry the requested PID, their continuity counters
advance by one mod 16 starting from the initial counter, the final
counter is the initial one advanced by the number of packets, and only a
leading packet can carry PUSI. -/
theorem create_ts_packets_go_spec (pid : Nat) (hpid : pid < 8192) :
    ∀ (n : Nat) (pes : List Nat), pes.length ≤ n → ∀ (first : Bool) (cc : Nat),
      cc < 16 →
      ((create_ts_packets_go pid first cc n pes).2.map cc_of_packet =
        (List.range (create_ts_packets_go pid first cc n pes).2.length).map
          (fun i => (cc + i) % 16)) ∧
      (create_ts_packets_go pid first cc n pes).1 =
        (cc + (create_ts_packets_go pid first cc n pes).2.length) % 16 ∧
      (∀ p ∈ (create_ts_packets_go pid first cc n pes).2, pid_of_packet p = pid) ∧
      (first = false → ∀ p ∈ (create_ts_packets_go pid first cc n pes).2,
        pusi_of_packet p = false) := by
  intro n
  induction n with
  | zero =>
    intro pes hle first cc hcc
    have hnil : pes = [] := by
      cases pes with
      | nil => rfl
      | cons x xs => simp at hle
    subst hnil
    simp [create_ts_packets_go]
    omega
  | succ n ih =>
    intro pes hle first cc hcc
    cases pes with
    | nil =>
      simp [create_ts_packets_go]
      omega
    | cons x xs =>
      have hlen' : ((x :: xs).drop 184).length ≤ n := by
        simp [List.length_drop]
        simp at hle
        omega
      have hcc' : (cc + 1) &&& 0x0F < 16 := by
        rw [and_15]
        omega
      obtain ⟨ih1, ih2, ih3, ih4⟩ := ih ((x :: xs).drop 184) hlen' false
        ((cc + 1) &&& 0x0F) hcc'
      have hstep : create_ts_packets_go pid first cc (n + 1) (x :: xs) =
          ((create_ts_packets_go pid false ((cc + 1) &&& 0x0F) n
              ((x :: xs).drop 184)).1,
           ts_data_packet pid first cc ((x :: xs).take 184) ::
             (create_ts_packets_go pid false ((cc + 1) &&& 0x0F) n
               ((x :: xs).drop 184)).2) := rfl
      rw [hstep]
      refine ⟨?_, ?_, ?_, ?_⟩
      · simp only [List.map_cons, List.length_cons]
        rw [ts_data_packet_cc pid first cc _ hcc, ih1]
        rw [List.range_succ_eq_map, List.map_cons, List.map_map]
        have hc0 : (cc + 0) % 16 = cc := by omega
        rw [hc0]
        refine congrArg (cc :: ·) ?_
        apply List.map_congr_left
        intro i _
        simp [and_15]
        omega
      · simp only [List.length_cons]
        rw [ih2, and_15]
        omega
      · intro p hp
        rcases List.mem_cons.mp hp with h | h
        · subst h
          exact ts_data_packet_pid pid first cc _ hpid
        · exact ih3 p h
      · intro hf p hp
        rcases List.mem_cons.mp hp with h | h
        · subst h
          rw [ts_data_packet_pusi, hf]
        · exact ih4 rfl p h

/-- PAT packet projections: PID 0, counter taken from the state, PUSI set,
and the counter advanced by one mod 16. -/
theorem generate_pat_packet (m : TsMuxer) (hcc : m.pat_continuity < 16) :
    pid_of_packet (m.generate_pat).2 = 0x0000 ∧
    cc_of_packet (m.generate_pat).2 = m.pat_continuity ∧
    pusi_of_packet (m.generate_pat).2 = true ∧
    (m.generate_pat).1 = { m with pat_continuity := (m.pat_continuity + 1) &&& 0x0F } := by
  refine ⟨?_, ?_, ?_, rfl⟩
  · simp only [TsMuxer.generate_pat, pid_of_packet, List.cons_append, List.getD,
      List.get?_cons_succ, List.get?_cons_zero, Option.getD_some]
    decide
  · simp only [TsMuxer.generate_pat, cc_of_packet, List.cons_append, List.getD,
      List.get?_cons_succ, List.get?_cons_zero, Option.getD_some]
    exact psi_cc_nibble _ hcc
  · simp only [TsMuxer.generate_pat, pusi_of_packet, List.cons_append, List.getD,
      List.get?_cons_succ, List.get?_cons_zero, Option.getD_some]
    norm_num

/-- PMT packet projections for the default configuration: PID 0x1000,
counter taken from the state, PUSI set, counter advanced mod 16. -/
theorem generate_pmt_packet (m : TsMuxer) (hcfg : m.config = TsMuxerConfig.default)
    (hcc : m.pmt_continuity < 16) :
    pid_of_packet (m.generate_pmt).2 = 0x1000 ∧
    cc_of_packet (m.generate_pmt).2 = m.pmt_continuity ∧
    pusi_of_packet (m.generate_pmt).2 = true ∧
    (m.generate_pmt).1 = { m with pmt_continuity := (m.pmt_continuity + 1) &&& 0x0F } := by
  refine ⟨?_, ?_, ?_, rfl⟩
  · simp only [TsMuxer.generate_pmt, pid_of_packet, List.cons_append, List.getD,
      List.get?_cons_succ, List.get?_cons_zero, Option.getD_some]
    rw [hcfg]
    rfl
  · simp only [TsMuxer.generate_pmt, cc_of_packet, List.cons_append, List.getD,
      List.get?_cons_succ, List.get?_cons_zero, Option.getD_some]
    exact psi_cc_nibble _ hcc
  · simp only [TsMuxer.generate_pmt, pusi_of_packet, List.cons_append, List.getD,
      List.get?_cons_succ, List.get?_cons_zero, Option.getD_some]
    simp only [hcfg, TsMuxerConfig.default]
    decide

/-- Passthrough packet projections: the PID bytes are untouched and the
continuity nibble is replaced by the video counter. -/
theorem passthrough_video_packet (m : TsMuxer) (pkt : List Nat)
    (hlen : 3 < pkt.length) (hcc : m.video_continuity < 16) :
    pid_of_packet (m.passthrough_video pkt).2 = pid_of_packet pkt ∧
    cc_of_packet (m.passthrough_video pkt).2 = m.video_continuity := by
  constructor
  · unfold TsMuxer.passthrough_video pid_of_packet
    simp only [List.getD]
    rw [List.get?_set_ne _ _ (by omega), List.get?_set_ne _ _ (by omega)]
  · unfold TsMuxer.passthrough_video cc_of_packet
    simp only [List.getD]
    rw [List.get?_set_eq_of_lt _ hlen]
    simp only [Option.getD_some]
    rw [Nat.and_distrib_right, Nat.and_assoc]
    rw [show (0xF0 : Nat) &&& 0x0F = 0 from rfl, Nat.and_zero, Nat.zero_or, and_15]
    omega

/-! ### Muxer call sequences (claim C9) -/

/-- One public muxer call: mux an AAC frame, pass a video packet through,
or regenerate one PSI table. -/
inductive MuxOp where
| muxAudio (aac : List Nat) (pts dts : Nat)
| passthroughVideo (packet : List Nat)
| genPat
| genPmt

/-- Dispatch of one muxer call to the embedded operation. -/
def TsMuxer.step : TsMuxer → MuxOp → TsMuxer × List (List Nat)
| m, .muxAudio aac pts dts => m.mux_audio aac pts dts
| m, .passthroughVideo pkt =>
    let r := m.passthrough_video pkt
    (r.1, [r.2])
| m, .genPat =>
    let r := m.generate_pat
    (r.1, [r.2])
| m, .genPmt =>
    let r := m.generate_pmt
    (r.1, [r.2])

/-- Sequential execution of muxer calls, concatenating emitted packets. -/
def TsMuxer.run : TsMuxer → List MuxOp → TsMuxer × List (List Nat)
| m, [] => (m, [])
| m, op :: ops =>
    let r1 := m.step op
    let r2 := r1.1.run ops
    (r2.1, r1.2 ++ r2.2)

/-- Packets of the output that carry a given PID. -/
def packets_on (P : Nat) (out : List (List Nat)) : List (List Nat) :=
  out.filter (fun p => decide (pid_of_packet p = P))

/-- The continuity counter sequence expected on one PID, starting at c. -/
def ccSeq (c k : Nat) : List Nat :=
  (List.range k).map (fun i => (c + i) % 16)

/-- The muxer counter responsible for a PID under the default config. -/
def pid_counter (m : TsMuxer) (P : Nat) : Nat :=
  if P = 0x0101 then m.audio_continuity
  else if P = 0x0100 then m.video_continuity
  else if P = 0x0000 then m.pat_continuity
  else m.pmt_continuity

/-- All four continuity counters of the muxer are nibble-sized. -/
def CtrOk (m : TsMuxer) : Prop :=
  m.audio_continuity < 16 ∧ m.video_continuity < 16 ∧
  m.pat_continuity < 16 ∧ m.pmt_continuity < 16

/-- Concatenation of expected counter runs. -/
theorem ccSeq_append (c k1 k2 : Nat) :
    ccSeq c k1 ++ ccSeq ((c + k1) % 16) k2 = ccSeq c (k1 + k2) := by
  unfold ccSeq
  rw [List.range_add, List.map_append, List.map_map]
  congr 1
  apply List.map_congr_left
  intro i _
  simp
  omega

/-- Empty expected run. -/
theorem ccSeq_zero (c : Nat) : ccSeq c 0 = [] := rfl

/-- Singleton expected run. -/
theorem ccSeq_one (c : Nat) (hc : c < 16) : ccSeq c 1 = [c] := by
  unfold ccSeq
  simp [List.range_succ]
  omega

/-- Unfolding equation for `mux_audio` in terms of the PSI pair and the
fragmentation loop. -/
theorem mux_audio_eq (m : TsMuxer) (aac : List Nat) (pts dts : Nat) :
    m.mux_audio aac pts dts =
      (let psi : TsMuxer × List (List Nat) :=
        if m.packets_muxed % m.psi_interval = 0 then
          (((m.generate_pat).1.generate_pmt).1,
            [(m.generate_pat).2, ((m.generate_pat).1.generate_pmt).2])
        else (m, [])
       let r := create_ts_packets_go psi.1.config.audio_pid true
         psi.1.audio_continuity (create_pes_packet aac pts dts).length
         (create_pes_packet aac pts dts)
       let next := { psi.1 with
         audio_continuity := r.1
         packets_muxed := psi.1.packets_muxed + (psi.2 ++ r.2).length }
       (next, psi.2 ++ r.2)) := by
  unfold TsMuxer.mux_audio TsMuxer.create_ts_packets
  by_cases hpsi : m.packets_muxed % m.psi_interval = 0
  · simp only [if_pos hpsi]
    rfl
  · simp only [if_neg hpsi]
    rfl

/-- Filtering distributes over concatenation. -/
theorem packets_on_append (P : Nat) (l1 l2 : List (List Nat)) :
    packets_on P (l1 ++ l2) = packets_on P l1 ++ packets_on P l2 := by
  simp [packets_on]

/-- Filtering a list all of whose packets carry the PID. -/
theorem packets_on_all (P : Nat) (l : List (List Nat))
    (h : ∀ p ∈ l, pid_of_packet p = P) : packets_on P l = l := by
  unfold packets_on
  rw [List.filter_eq_self]
  intro a ha
  simp [h a ha]

/-- Filtering a list none of whose packets carry the PID. -/
theorem packets_on_none (P : Nat) (l : List (List Nat))
    (h : ∀ p ∈ l, pid_of_packet p ≠ P) : packets_on P l = [] := by
  unfold packets_on
  rw [List.filter_eq_nil_iff]
  intro a ha
  simp [h a ha]

/-- Filtering a one-packet list that carries the PID. -/
theorem packets_on_one_eq (P : Nat) (p : List Nat) (h : pid_of_packet p = P) :
    packets_on P [p] = [p] := packets_on_all P [p] (by simpa using h)

/-- Filtering a one-packet list that carries another PID. -/
theorem packets_on_one_ne (P : Nat) (p : List Nat) (h : pid_of_packet p ≠ P) :
    packets_on P [p] = [] := packets_on_none P [p] (by simpa using h)

/-- One muxer call preserves the default configuration and nibble-sized
counters, and on every tracked PID it emits packets whose continuity
counters continue the per-PID counter, which advances by the number of
emitted packets on that PID. -/
theorem step_spec (m : TsMuxer) (op : MuxOp)
    (hcfg : m.config = TsMuxerConfig.default) (hctr : CtrOk m)
    (hvid : ∀ pkt, op = .passthroughVideo pkt →
      pid_of_packet pkt = 0x0100 ∧ 3 < pkt.length) :
    (m.step op).1.config = TsMuxerConfig.default ∧
    CtrOk (m.step op).1 ∧
    (∀ P, P = 0x0101 ∨ P = 0x0100 ∨ P = 0x0000 ∨ P = 0x1000 →
      (packets_on P (m.step op).2).map cc_of_packet =
        ccSeq (pid_counter m P) (packets_on P (m.step op).2).length ∧
      pid_counter (m.step op).1 P =
        (pid_counter m P + (packets_on P (m.step op).2).length) % 16) := by
  obtain ⟨ha, hv, hp, hq⟩ := hctr
  cases op with
  | genPat =>
    obtain ⟨hpid, hccp, _, hst⟩ := generate_pat_packet m hp
    have hstep : m.step .genPat = ((m.generate_pat).1, [(m.generate_pat).2]) := rfl
    rw [hstep, hst]
    refine ⟨hcfg, ⟨ha, hv, by dsimp only; rw [and_15]; omega, hq⟩, ?_⟩
    intro P hP
    rcases hP with h | h | h | h <;> subst h
    · rw [packets_on_one_ne _ _ (by rw [hpid]; norm_num)]
      exact ⟨rfl, by simp [pid_counter]; omega⟩
    · rw [packets_on_one_ne _ _ (by rw [hpid]; norm_num)]
      exact ⟨rfl, by simp [pid_counter]; omega⟩
    · rw [packets_on_one_eq _ _ hpid]
      simp only [List.map_cons, List.map_nil, List.length_cons, List.length_nil, hccp]
      refine ⟨?_, ?_⟩
      · simp [ccSeq, pid_counter, List.range_succ]
        omega
      · simp [pid_counter, and_15]
    · rw [packets_on_one_ne _ _ (by rw [hpid]; norm_num)]
      exact ⟨rfl, by simp [pid_counter]; omega⟩
  | genPmt =>
    obtain ⟨hpid, hccp, _, hst⟩ := generate_pmt_packet m hcfg hq
    have hstep : m.step .genPmt = ((m.generate_pmt).1, [(m.generate_pmt).2]) := rfl
    rw [hstep, hst]
    refine ⟨hcfg, ⟨ha, hv, hp, by dsimp only; rw [and_15]; omega⟩, ?_⟩
    intro P hP
    rcases hP with h | h | h | h <;> subst h
    · rw [packets_on_one_ne _ _ (by rw [hpid]; norm_num)]
      exact ⟨rfl, by simp [pid_counter]; omega⟩
    · rw [packets_on_one_ne _ _ (by rw [hpid]; norm_num)]
      exact ⟨rfl, by simp [pid_counter]; omega⟩
    · rw [packets_on_one_ne _ _ (by rw [hpid]; norm_num)]
      exact ⟨rfl, by simp [pid_counter]; omega⟩
    · rw [packets_on_one_eq _ _ hpid]
      simp only [List.map_cons, List.map_nil, List.length_cons, List.length_nil, hccp]
      refine ⟨?_, ?_⟩
      · simp [ccSeq, pid_counter, List.range_succ]
        omega
      · simp [pid_counter, and_15]
  | passthroughVideo pkt =>
    obtain ⟨hvp, hvl⟩ := hvid pkt rfl
    obtain ⟨hpid, hccp⟩ := passthrough_video_packet m pkt hvl hv
    have hstep : m.step (.passthroughVideo pkt) =
        ((m.passthrough_video pkt).1, [(m.passthrough_video pkt).2]) := rfl
    rw [hstep]
    have hst : (m.passthrough_video pkt).1 = { m with
        video_continuity := (m.video_continuity + 1) &&& 0x0F
        packets_muxed := m.packets_muxed + 1 } := rfl
    rw [hst]
    rw [hvp] at hpid
    refine ⟨hcfg, ⟨ha, by dsimp only; rw [and_15]; omega, hp, hq⟩, ?_⟩
    intro P hP
    rcases hP with h | h | h | h <;> subst h
    · rw [packets_on_one_ne _ _ (by rw [hpid]; norm_num)]
      exact ⟨rfl, by simp [pid_counter]; omega⟩
    · rw [packets_on_one_eq _ _ hpid]
      simp only [List.map_cons, List.map_nil, List.length_cons, List.length_nil, hccp]
      refine ⟨?_, ?_⟩
      · simp [ccSeq, pid_counter, List.range_succ]
        omega
      · simp [pid_counter, and_15]
    · rw [packets_on_one_ne _ _ (by rw [hpid]; norm_num)]
      exact ⟨rfl, by simp [pid_counter]; omega⟩
    · rw [packets_on_one_ne _ _ (by rw [hpid]; norm_num)]
      exact ⟨rfl, by simp [pid_counter]; omega⟩
  | muxAudio aac pts dts =>
    have hstep : m.step (.muxAudio aac pts dts) = m.mux_audio aac pts dts := rfl
    rw [hstep, mux_audio_eq]
    by_cases hpsi : m.packets_muxed % m.psi_interval = 0
    · simp only [if_pos hpsi]
      have hpidA : ((m.generate_pat).1.generate_pmt).1.config.audio_pid = 257 := by
        rw [show ((m.generate_pat).1.generate_pmt).1.config = m.config from rfl, hcfg]
        rfl
      have hacc : ((m.generate_pat).1.generate_pmt).1.audio_continuity =
          m.audio_continuity := rfl
      rw [hpidA, hacc]
      obtain ⟨hgo1, hgo2, hgo3, _⟩ :=
        create_ts_packets_go_spec 257 (by norm_num)
          (create_pes_packet aac pts dts).length (create_pes_packet aac pts dts)
          le_rfl true m.audio_continuity ha
      obtain ⟨hpidPat, hccPat, _, _⟩ := generate_pat_packet m hp
      obtain ⟨hpidPmt, hccPmt, _, _⟩ :=
        generate_pmt_packet (m.generate_pat).1 hcfg hq
      set data := (create_ts_packets_go 257 true m.audio_continuity
        (create_pes_packet aac pts dts).length (create_pes_packet aac pts dts)).2
        with hdata
      have hpsiNone : ∀ P2 : Nat, P2 ≠ 0 → P2 ≠ 4096 →
          packets_on P2 [(m.generate_pat).2, ((m.generate_pat).1.generate_pmt).2] = [] := by
        intro P2 h0 h4
        apply packets_on_none
        intro p hp2
        rcases List.mem_cons.mp hp2 with h | h
        · rw [h, hpidPat]
          omega
        · rcases List.mem_cons.mp h with h2 | h2
          · rw [h2, hpidPmt]
            omega
          · simp at h2
      refine ⟨hcfg, ⟨by dsimp only; rw [hgo2]; omega, hv,
        by show (m.pat_continuity + 1) &&& 0x0F < 16; rw [and_15]; omega,
        by show (m.pmt_continuity + 1) &&& 0x0F < 16; rw [and_15]; omega⟩, ?_⟩
      intro P hP
      rcases hP with h | h | h | h <;> subst h
      · rw [packets_on_append, hpsiNone 257 (by norm_num) (by norm_num),
          packets_on_all _ _ hgo3, List.nil_append]
        refine ⟨hgo1, ?_⟩
        simp [pid_counter, hgo2]
      · rw [packets_on_append, hpsiNone 256 (by norm_num) (by norm_num),
          packets_on_none _ _ (fun p hp2 => by rw [hgo3 p hp2]; norm_num),
          List.nil_append]
        refine ⟨rfl, ?_⟩
        simp [pid_counter]
        rw [show (m.generate_pat).1.generate_pmt.1.video_continuity =
          m.video_continuity from rfl]
        omega
      · rw [packets_on_append]
        have hpat1 : packets_on 0 [(m.generate_pat).2,
            ((m.generate_pat).1.generate_pmt).2] = [(m.generate_pat).2] := by
          unfold packets_on
          rw [List.filter_cons, List.filter_cons]
          simp [hpidPat, hpidPmt]
        rw [hpat1, packets_on_none _ _
          (fun p hp2 => by rw [hgo3 p hp2]; norm_num), List.append_nil]
        simp only [List.map_cons, List.map_nil, List.length_cons, List.length_nil, hccPat]
        refine ⟨?_, ?_⟩
        · simp [ccSeq, pid_counter, List.range_succ]
          omega
        · simp [pid_counter]
          rw [show (m.generate_pat).1.generate_pmt.1.pat_continuity =
            (m.pat_continuity + 1) &&& 0x0F from rfl, and_15]
      · rw [packets_on_append]
        have hpmt1 : packets_on 4096 [(m.generate_pat).2,
            ((m.generate_pat).1.generate_pmt).2] =
            [((m.generate_pat).1.generate_pmt).2] := by
          unfold packets_on
          rw [List.filter_cons, List.filter_cons]
          simp [hpidPat, hpidPmt]
        rw [hpmt1, packets_on_none _ _
          (fun p hp2 => by rw [hgo3 p hp2]; norm_num), List.append_nil]
        have hmA : (m.generate_pat).1.pmt_continuity = m.pmt_continuity := rfl
        simp only [List.map_cons, List.map_nil, List.length_cons, List.length_nil,
          hccPmt, hmA]
        refine ⟨?_, ?_⟩
        · simp [ccSeq, pid_counter, List.range_succ]
          omega
        · simp [pid_counter]
          rw [show (m.generate_pat).1.generate_pmt.1.pmt_continuity =
            (m.pmt_continuity + 1) &&& 0x0F from rfl, and_15]
    · simp only [if_neg hpsi]
      have hpidA : m.config.audio_pid = 257 := by
        rw [hcfg]
        rfl
      rw [hpidA]
      obtain ⟨hgo1, hgo2, hgo3, _⟩ :=
        create_ts_packets_go_spec 257 (by norm_num)
          (create_pes_packet aac pts dts).length (create_pes_packet aac pts dts)
          le_rfl true m.audio_continuity ha
      refine ⟨hcfg, ⟨by dsimp only; rw [hgo2]; omega, hv, hp, hq⟩, ?_⟩
      intro P hP
      rcases hP with h | h | h | h <;> subst h
      · rw [show ([] : List (List Nat)) ++ (create_ts_packets_go 257 true
            m.audio_continuity (create_pes_packet aac pts dts).length
            (create_pes_packet aac pts dts)).2 =
            (create_ts_packets_go 257 true m.audio_continuity
              (create_pes_packet aac pts dts).length
              (create_pes_packet aac pts dts)).2 from List.nil_append _,
          packets_on_all _ _ hgo3]
        refine ⟨hgo1, ?_⟩
        simp [pid_counter, hgo2]
      · rw [List.nil_append, packets_on_none _ _
          (fun p hp2 => by rw [hgo3 p hp2]; norm_num)]
        exact ⟨rfl, by simp [pid_counter]; omega⟩
      · rw [List.nil_append, packets_on_none _ _
          (fun p hp2 => by rw [hgo3 p hp2]; norm_num)]
        exact ⟨rfl, by simp [pid_counter]; omega⟩
      · rw [List.nil_append, packets_on_none _ _
          (fun p hp2 => by rw [hgo3 p hp2]; norm_num)]
        exact ⟨rfl, by simp [pid_counter]; omega⟩

/-- Element of an expected counter run. -/
theorem ccSeq_getD (c k i : Nat) (h : i < k) :
    (ccSeq c k).getD i 0 = (c + i) % 16 := by
  unfold ccSeq
  simp [List.getD, List.get?_eq_getElem?, List.getElem?_map, List.getElem?_range h]

/-- Defaulted indexing commutes with map inside the length. -/
theorem getD_map_cc (l : List (List Nat)) (i : Nat) (h : i < l.length) :
    (l.map cc_of_packet).getD i 0 = cc_of_packet (l.getD i []) := by
  simp [List.getD, List.get?_eq_getElem?, List.getElem?_map,
    List.getElem?_eq_getElem h]

/-- Running a sequence of muxer calls from a well-formed state: on every
tracked PID the emitted counters form the expected run continuing from the
per-PID counter of the initial state. -/
theorem run_spec (ops : List MuxOp) :
    ∀ m : TsMuxer, m.config = TsMuxerConfig.default → CtrOk m →
    (∀ pkt, MuxOp.passthroughVideo pkt ∈ ops →
      pid_of_packet pkt = 0x0100 ∧ 3 < pkt.length) →
    (m.run ops).1.config = TsMuxerConfig.default ∧ CtrOk (m.run ops).1 ∧
    (∀ P, P = 0x0101 ∨ P = 0x0100 ∨ P = 0x0000 ∨ P = 0x1000 →
      (packets_on P (m.run ops).2).map cc_of_packet =
        ccSeq (pid_counter m P) (packets_on P (m.run ops).2).length ∧
      pid_counter (m.run ops).1 P =
        (pid_counter m P + (packets_on P (m.run ops).2).length) % 16) := by
  induction ops with
  | nil =>
    intro m hcfg hctr _
    refine ⟨hcfg, hctr, ?_⟩
    intro P hP
    obtain ⟨ha, hv, hp, hq⟩ := hctr
    refine ⟨rfl, ?_⟩
    rcases hP with h | h | h | h <;> subst h <;>
      simp [show m.run [] = (m, []) from rfl, packets_on, pid_counter] <;> omega
  | cons op ops ih =>
    intro m hcfg hctr hvid
    obtain ⟨hcfg1, hctr1, hP1⟩ := step_spec m op hcfg hctr
      (fun pkt h => hvid pkt (by rw [h]; exact List.mem_cons_self _ _))
    obtain ⟨hcfg2, hctr2, hP2⟩ := ih (m.step op).1 hcfg1 hctr1
      (fun pkt h => hvid pkt (List.mem_cons_of_mem _ h))
    have hrun : m.run (op :: ops) =
        (((m.step op).1.run ops).1,
          (m.step op).2 ++ ((m.step op).1.run ops).2) := rfl
    rw [hrun]
    refine ⟨hcfg2, hctr2, ?_⟩
    intro P hP
    obtain ⟨h1a, h1b⟩ := hP1 P hP
    obtain ⟨h2a, h2b⟩ := hP2 P hP
    rw [packets_on_append, List.map_append, List.length_append]
    constructor
    · rw [h1a, h2a, h1b, ccSeq_append]
    · rw [h2b, h1b]
      omega

/-- Claim C9: over any sequence of mux_audio, passthrough_video,
generate_pat and generate_pmt calls on a fresh default muxer, the
continuity counters written into the emitted TS packets of any one PID
(audio 0x0101, video 0x0100, PAT 0x0000, PMT 0x1000) advance by exactly
one mod 16 from each emitted packet of that PID to the next.  Video
passthrough inputs are 188-byte packets on the video PID, as in the
source contract. -/
theorem claim_C9 (ops : List MuxOp) (P : Nat)
    (hP : P = 0x0101 ∨ P = 0x0100 ∨ P = 0x0000 ∨ P = 0x1000)
    (hvid : ∀ pkt, MuxOp.passthroughVideo pkt ∈ ops →
      pid_of_packet pkt = 0x0100 ∧ 3 < pkt.length)
    (i : Nat)
    (hi : i + 1 <
      (packets_on P ((TsMuxer.new TsMuxerConfig.default).run ops).2).length) :
    cc_of_packet ((packets_on P
        ((TsMuxer.new TsMuxerConfig.default).run ops).2).getD (i + 1) []) =
      (cc_of_packet ((packets_on P
        ((TsMuxer.new TsMuxerConfig.default).run ops).2).getD i []) + 1) % 16 := by
  obtain ⟨-, -, hPs⟩ := run_spec ops (TsMuxer.new TsMuxerConfig.default) rfl
    ⟨by decide, by decide, by decide, by decide⟩ hvid
  obtain ⟨hmap, -⟩ := hPs P hP
  have hc0 : pid_counter (TsMuxer.new TsMuxerConfig.default) P = 0 := by
    rcases hP with h | h | h | h <;> subst h <;> rfl
  rw [hc0] at hmap
  have e1 : cc_of_packet ((packets_on P
      ((TsMuxer.new TsMuxerConfig.default).run ops).2).getD (i + 1) []) =
      (0 + (i + 1)) % 16 := by
    rw [← getD_map_cc _ (i + 1) hi, hmap, ccSeq_getD _ _ _ hi]
  have e2 : cc_of_packet ((packets_on P
      ((TsMuxer.new TsMuxerConfig.default).run ops).2).getD i []) =
      (0 + i) % 16 := by
    rw [← getD_map_cc _ i (by omega), hmap, ccSeq_getD _ _ _ (by omega)]
  rw [e1, e2]
  omega

/-- Witness for claim C9: three PAT regenerations on a fresh muxer; the
second emitted PAT packet continues the counter of the first. -/
theorem claim_C9_witness :
    cc_of_packet ((packets_on 0 ((TsMuxer.new TsMuxerConfig.default).run
        [MuxOp.genPat, MuxOp.genPat, MuxOp.genPat]).2).getD 1 []) =
      (cc_of_packet ((packets_on 0 ((TsMuxer.new TsMuxerConfig.default).run
        [MuxOp.genPat, MuxOp.genPat, MuxOp.genPat]).2).getD 0 []) + 1) % 16 :=
  claim_C9 [MuxOp.genPat, MuxOp.genPat, MuxOp.genPat] 0 (by norm_num)
    (fun pkt h => by simp at h) 0 (by decide)

/-! ### Claim C3: PSI regeneration cadence -/

/-- Claim C3 (amended): a fresh default muxer has PSI interval 40 and a
zero packets-muxed counter, and a mux_audio call regenerates PSI exactly
when the cumulative count of previously emitted packets (PSI, audio data
and passthrough packets alike, not audio frames) is divisible by the PSI
interval; in that case one PAT packet (PID 0, PUSI set) followed by one
PMT packet (PID 0x1000, PUSI set) precedes the audio data packets, and
otherwise only the data packets are emitted. -/
theorem claim_C3 (m : TsMuxer) (aac : List Nat) (pts dts : Nat)
    (hcfg : m.config = TsMuxerConfig.default) (hctr : CtrOk m) :
    ((TsMuxer.new TsMuxerConfig.default).psi_interval = 40 ∧
     (TsMuxer.new TsMuxerConfig.default).packets_muxed = 0) ∧
    (m.packets_muxed % m.psi_interval = 0 →
      (m.mux_audio aac pts dts).2 =
        [(m.generate_pat).2, ((m.generate_pat).1.generate_pmt).2] ++
          (create_ts_packets_go 257 true m.audio_continuity
            (create_pes_packet aac pts dts).length
            (create_pes_packet aac pts dts)).2 ∧
      pid_of_packet (m.generate_pat).2 = 0x0000 ∧
      pusi_of_packet (m.generate_pat).2 = true ∧
      pid_of_packet ((m.generate_pat).1.generate_pmt).2 = 0x1000 ∧
      pusi_of_packet ((m.generate_pat).1.generate_pmt).2 = true) ∧
    (m.packets_muxed % m.psi_interval ≠ 0 →
      (m.mux_audio aac pts dts).2 =
        (create_ts_packets_go 257 true m.audio_continuity
          (create_pes_packet aac pts dts).length
          (create_pes_packet aac pts dts)).2) := by
  obtain ⟨ha, hv, hp, hq⟩ := hctr
  refine ⟨⟨rfl, rfl⟩, ?_, ?_⟩
  · intro h
    obtain ⟨hpidPat, _, hpusiPat, _⟩ := generate_pat_packet m hp
    obtain ⟨hpidPmt, _, hpusiPmt, _⟩ := generate_pmt_packet (m.generate_pat).1 hcfg hq
    refine ⟨?_, hpidPat, hpusiPat, hpidPmt, hpusiPmt⟩
    rw [mux_audio_eq]
    simp only [if_pos h]
    have hpidA : ((m.generate_pat).1.generate_pmt).1.config.audio_pid = 257 := by
      rw [show ((m.generate_pat).1.generate_pmt).1.config = m.config from rfl, hcfg]
      rfl
    have hacc : ((m.generate_pat).1.generate_pmt).1.audio_continuity =
        m.audio_continuity := rfl
    rw [hpidA, hacc]
  · intro h
    rw [mux_audio_eq]
    simp only [if_neg h]
    have hpidA : m.config.audio_pid = 257 := by
      rw [hcfg]
      rfl
    rw [hpidA, List.nil_append]

/-- Witness for claim C3 (amended) at a fresh default muxer and one
10-byte frame: the first call emits PAT then PMT at the head. -/
theorem claim_C3_witness :
    ((TsMuxer.new TsMuxerConfig.default).mux_audio (List.replicate 10 0) 0 0).2 =
      [((TsMuxer.new TsMuxerConfig.default).generate_pat).2,
       (((TsMuxer.new TsMuxerConfig.default).generate_pat).1.generate_pmt).2] ++
        (create_ts_packets_go 257 true 0
          (create_pes_packet (List.replicate 10 0) 0 0).length
          (create_pes_packet (List.replicate 10 0) 0 0)).2 ∧
    pid_of_packet ((TsMuxer.new TsMuxerConfig.default).generate_pat).2 = 0x0000 ∧
    pid_of_packet
      (((TsMuxer.new TsMuxerConfig.default).generate_pat).1.generate_pmt).2 =
        0x1000 := by
  have h := claim_C3 (TsMuxer.new TsMuxerConfig.default) (List.replicate 10 0) 0 0
    rfl ⟨by decide, by decide, by decide, by decide⟩
  obtain ⟨heq, hpidPat, _, hpidPmt, _⟩ := h.2.1 (by decide)
  exact ⟨heq, hpidPat, hpidPmt⟩

set_option maxRecDepth 400000 in
/-- Counterexample to claim C3 as stated: with one-data-packet frames the
muxer regenerates PSI on the 39th mux_audio call (a PAT packet appears in
the output of call 39), although 39 is not one more than a multiple of
40, so PSI does not recur every 40 audio frames. -/
theorem claim_C3_counterexample :
    (packets_on 0 ((((TsMuxer.new TsMuxerConfig.default).run
        (List.replicate 38 (MuxOp.muxAudio (List.replicate 100 0) 0 0))).1.mux_audio
        (List.replicate 100 0) 0 0).2)).length = 1 ∧
    (39 - 1) % 40 ≠ 0 := by decide

/-! ### AAC encoder and ADTS framer (src/transcoder/src/encoder.rs) -/

/-- AAC profile (`AacProfile`). -/
inductive AacProfile
| AacLc
| HeAac
| HeAacV2
deriving DecidableEq, Repr

/-- ADTS profile value (`AacProfile::adts_profile`). -/
def AacProfile.adts_profile : AacProfile → Nat
| .AacLc => 1
| .HeAac => 4
| .HeAacV2 => 28

/-- Encoder configuration (`AacEncoderConfig`). -/
structure AacEncoderConfig where
  sample_rate : Nat
  channels : Nat
  bitrate : Nat
  profile : AacProfile
deriving DecidableEq, Repr

/-- Default encoder configuration (`AacEncoderConfig::default`). -/
def AacEncoderConfig.default : AacEncoderConfig :=
  { sample_rate := 48000, channels := 2, bitrate := 192000, profile := .AacLc }

/-- Configuration validation (`AacEncoderConfig::validate`). -/
def AacEncoderConfig.validate (c : AacEncoderConfig) : Except String Unit :=
  if c.sample_rate < 8000 ∨ c.sample_rate > 96000 then
    .error ("Invalid sample rate")
  else if c.channels < 1 ∨ c.channels > 8 then
    .error ("Invalid channel count")
  else if c.bitrate < 32000 ∨ c.bitrate > 512000 then
    .error ("Invalid bitrate")
  else
    .ok ()

/-- ADTS sample-rate table (`AdtsHeader::sample_rate_to_index`). -/
def sample_rate_to_index (sample_rate : Nat) : Except String Nat :=
  match sample_rate with
  | 96000 => .ok 0
  | 88200 => .ok 1
  | 64000 => .ok 2
  | 48000 => .ok 3
  | 44100 => .ok 4
  | 32000 => .ok 5
  | 24000 => .ok 6
  | 22050 => .ok 7
  | 16000 => .ok 8
  | 12000 => .ok 9
  | 11025 => .ok 10
  | 8000 => .ok 11
  | 7350 => .ok 12
  | _ => .error ("Unsupported sample rate for ADTS")

/-- ADTS header generation (`AdtsHeader::generate`); `frame_length` is the
AAC payload byte count, the 7 header bytes are added inside. -/
def AdtsHeader.generate (profile : AacProfile) (sample_rate : Nat)
    (channels : Nat) (frame_length : Nat) : Except String (List Nat) :=
  match sample_rate_to_index sample_rate with
  | .error e => .error e
  | .ok sample_rate_index =>
    let channel_config := channels % 256
    if channel_config > 8 then
      .error ("Invalid channel count for ADTS")
    else
      let adts_profile := profile.adts_profile
      let total_length := frame_length + 7
      if total_length > 0x1FFF then
        .error ("Frame too large for ADTS")
      else
        .ok [0xFF,
          0xF1,
          (((adts_profile - 1) <<< 6) % 256) |||
            ((sample_rate_index <<< 2) % 256) ||| (channel_config >>> 2),
          ((channel_config &&& 0x03) <<< 6) ||| ((total_length >>> 11) % 256),
          (total_length >>> 3) &&& 0xFF,
          ((total_length &&& 0x07) <<< 5) ||| 0x1F,
          0xFC]

/-- Successful ADTS generation pins down the checks and the bytes. -/
theorem adts_generate_ok_shape (profile : AacProfile) (sample_rate : Nat)
    (channels : Nat) (frame_length : Nat) (h : List Nat)
    (hok : AdtsHeader.generate profile sample_rate channels frame_length = .ok h) :
    ∃ idx, sample_rate_to_index sample_rate = .ok idx ∧
      channels % 256 ≤ 8 ∧ frame_length + 7 ≤ 0x1FFF ∧
      h = [0xFF,
        0xF1,
        (((profile.adts_profile - 1) <<< 6) % 256) |||
          ((idx <<< 2) % 256) ||| ((channels % 256) >>> 2),
        (((channels % 256) &&& 0x03) <<< 6) ||| (((frame_length + 7) >>> 11) % 256),
        ((frame_length + 7) >>> 3) &&& 0xFF,
        (((frame_length + 7) &&& 0x07) <<< 5) ||| 0x1F,
        0xFC] := by
  unfold AdtsHeader.generate at hok
  cases hsr : sample_rate_to_index sample_rate with
  | error e =>
    rw [hsr] at hok
    cases hok
  | ok idx =>
    rw [hsr] at hok
    by_cases hch : channels % 256 > 8
    · simp [hch] at hok
    · by_cases htot : frame_length + 7 > 0x1FFF
      · simp [hch, htot] at hok
      · simp only [hch, htot, if_neg, if_false, reduceIte] at hok
        refine ⟨idx, rfl, by omega, by omega, ?_⟩
        cases hok
        rfl

/-- Claim C6: every generated ADTS header starts with sync bits 0xFFF,
MPEG version 0, layer 0, protection_absent 1, and its 13-bit frame-length
field equals the payload byte count plus the 7 header bytes; generation
fails when the sample rate is not in the ADTS table or when the total
length exceeds 0x1FFF; and for AAC-LC at 48 kHz stereo the header begins
0xFF 0xF1 with byte 2 equal to 0x0C and the channel bits of bytes 2-3
encoding 2 channels. -/
theorem claim_C6 :
    (∀ (profile : AacProfile) (sr ch fl : Nat) (h : List Nat),
      AdtsHeader.generate profile sr ch fl = .ok h →
      h.getD 0 0 = 0xFF ∧ h.getD 1 0 = 0xF1 ∧
      (h.getD 1 0 >>> 3) &&& 0x01 = 0 ∧
      (h.getD 1 0 >>> 1) &&& 0x03 = 0 ∧
      h.getD 1 0 &&& 0x01 = 1 ∧
      (h.getD 3 0 &&& 0x03) * 2 ^ 11 + (h.getD 4 0) * 2 ^ 3 + (h.getD 5 0) >>> 5 =
        fl + 7 ∧
      h.length = 7) ∧
    (∀ (profile : AacProfile) (sr ch fl : Nat),
      (∀ idx, sample_rate_to_index sr ≠ .ok idx) →
      ∃ e, AdtsHeader.generate profile sr ch fl = .error e) ∧
    (∀ (profile : AacProfile) (sr ch fl : Nat),
      ch % 256 ≤ 8 → fl + 7 > 0x1FFF →
      ∃ e, AdtsHeader.generate profile sr ch fl = .error e) ∧
    (∀ (fl : Nat) (h : List Nat),
      AdtsHeader.generate .AacLc 48000 2 fl = .ok h →
      h.getD 0 0 = 0xFF ∧ h.getD 1 0 = 0xF1 ∧ h.getD 2 0 = 0x0C ∧
      ((h.getD 2 0 &&& 0x01) <<< 2) ||| ((h.getD 3 0) >>> 6) = 2) := by
  refine ⟨?_, ?_, ?_, ?_⟩
  · intro profile sr ch fl h hok
    obtain ⟨idx, hsr, hch, htot, hshape⟩ :=
      adts_generate_ok_shape profile sr ch fl h hok
    subst hshape
    refine ⟨rfl, rfl,
      by show ((0xF1 : Nat) >>> 3) &&& 0x01 = 0; rfl,
      by show ((0xF1 : Nat) >>> 1) &&& 0x03 = 0; rfl,
      by show (0xF1 : Nat) &&& 0x01 = 1; rfl, ?_, rfl⟩
    have e3 : ((((ch % 256) &&& 0x03) <<< 6) ||| (((fl + 7) >>> 11) % 256)) &&& 0x03 =
        (fl + 7) / 2 ^ 11 := by
      rw [Nat.and_distrib_right]
      have p1 : (((ch % 256) &&& 0x03) <<< 6) &&& 0x03 = 0 := by
        rw [Nat.shiftLeft_eq, and_3]
        norm_num
        omega
      have p2 : (((fl + 7) >>> 11) % 256) &&& 0x03 = (fl + 7) / 2 ^ 11 := by
        rw [and_3, Nat.shiftRight_eq_div_pow]
        norm_num
        omega
      rw [p1, p2, Nat.zero_or]
    have e4 : ((fl + 7) >>> 3) &&& 0xFF = (fl + 7) / 2 ^ 3 % 256 := by
      rw [and_255, Nat.shiftRight_eq_div_pow]
    have e5 : ((((fl + 7) &&& 0x07) <<< 5) ||| 0x1F) >>> 5 = (fl + 7) % 8 := by
      rw [or_shiftRight]
      rw [show (0x1F : Nat) >>> 5 = 0 from rfl, Nat.or_zero]
      rw [Nat.shiftLeft_eq, Nat.shiftRight_eq_div_pow, and_7]
      norm_num
    simp only [List.getD, List.get?_cons_succ, List.get?_cons_zero, Option.getD_some]
    rw [e3, e4, e5]
    norm_num
    omega
  · intro profile sr ch fl hbad
    unfold AdtsHeader.generate
    cases hsr : sample_rate_to_index sr with
    | error e => exact ⟨e, rfl⟩
    | ok idx => exact absurd hsr (hbad idx)
  · intro profile sr ch fl hch htot
    unfold AdtsHeader.generate
    cases hsr : sample_rate_to_index sr with
    | error e => exact ⟨e, rfl⟩
    | ok idx =>
      refine ⟨"Frame too large for ADTS", ?_⟩
      simp [Nat.not_lt.mpr hch, htot]
  · intro fl h hok
    obtain ⟨idx, hsr, hch, htot, hshape⟩ :=
      adts_generate_ok_shape .AacLc 48000 2 fl h hok
    have hidx : idx = 3 := by
      rw [show sample_rate_to_index 48000 = .ok 3 from rfl] at hsr
      cases hsr
      rfl
    subst hidx
    subst hshape
    refine ⟨rfl, rfl, by rfl, ?_⟩
    simp only [List.getD, List.get?_cons_succ, List.get?_cons_zero, Option.getD_some]
    have hb2 : ((((AacProfile.AacLc.adts_profile - 1) <<< 6) % 256) |||
        ((3 <<< 2) % 256) ||| ((2 % 256) >>> 2)) &&& 0x01 = 0 := by rfl
    rw [hb2]
    have ht11 : ((fl + 7) >>> 11) % 256 = (fl + 7) / 2 ^ 11 := by
      rw [Nat.shiftRight_eq_div_pow]
      norm_num
      omega
    have hb3 : (((2 % 256) &&& 0x03) <<< 6) ||| (((fl + 7) >>> 11) % 256) =
        128 + (fl + 7) / 2 ^ 11 := by
      rw [ht11, show ((2 % 256) &&& 0x03) <<< 6 = 2 * 2 ^ 6 from rfl]
      have := or_eq_add_of_lt 2 ((fl + 7) / 2 ^ 11) 6 (by omega)
      norm_num at this ⊢
      omega
    rw [hb3]
    have h6 : (128 + (fl + 7) / 2 ^ 11) >>> 6 = 2 := by
      rw [Nat.shiftRight_eq_div_pow]
      norm_num
      omega
    rw [h6]
    decide

/-- Witness for C6: AAC-LC at 48 kHz stereo with a 100-byte payload yields the
concrete 7-byte header 0xFF 0xF1 0x0C 0x80 0x0D 0x7F 0xFC, whose channel bits
decode to 2 and whose 13-bit length field decodes to 107. -/
theorem claim_C6_witness :
    AdtsHeader.generate .AacLc 48000 2 100 =
      .ok [0xFF, 0xF1, 0x0C, 0x80, 0x0D, 0x7F, 0xFC] ∧
    ((0x0C : Nat) &&& 0x01) <<< 2 ||| ((0x80 : Nat) >>> 6) = 2 ∧
    ((0x80 : Nat) &&& 0x03) * 2 ^ 11 + (0x0D : Nat) * 2 ^ 3 + (0x7F : Nat) >>> 5 =
      100 + 7 := by
  refine ⟨by rfl, ?_, ?_⟩
  · have h := claim_C6.2.2.2 100 [0xFF, 0xF1, 0x0C, 0x80, 0x0D, 0x7F, 0xFC] (by rfl)
    simpa using h.2.2.2
  · have h := claim_C6.1 .AacLc 48000 2 100
      [0xFF, 0xF1, 0x0C, 0x80, 0x0D, 0x7F, 0xFC] (by rfl)
    simpa using h.2.2.2.2.2.1

/-! ### Decoder: stereo downmix (`decoder.rs`, `Ac3Decoder::downmix_to_stereo`) -/

/-- Rust `f32::clamp(lo, hi)`: below `lo` gives `lo`, above `hi` gives `hi`. -/
def clampQ (lo hi x : ℚ) : ℚ :=
  if x < lo then lo else if x > hi then hi else x

/-- `Ac3Decoder::downmix_to_stereo`. Stereo passes through; mono is
duplicated; otherwise a 5.1-style downmix per frame of `input_channels`
samples. The source indexes `samples[base]` and `samples[base + 1]`
directly (both always in range when a frame exists) and uses
`.get(..).unwrap_or(0.0)` for FC, BL, BR; both are modelled with `getD`.
The coefficients 0.7 and 0.5 are the source literals `0.7` / `0.5`. -/
def downmix_to_stereo (samples : List ℚ) (input_channels : Nat) : List ℚ :=
  if input_channels = 2 then samples
  else if input_channels = 1 then
    samples.flatMap (fun sample => [sample, sample])
  else
    let frame_count := samples.length / input_channels
    (List.range frame_count).flatMap (fun frame_idx =>
      let base := frame_idx * input_channels
      let fl := samples.getD base 0
      let fr := samples.getD (base + 1) 0
      let fc := samples.getD (base + 2) 0
      let bl := samples.getD (base + 4) 0
      let br := samples.getD (base + 5) 0
      let left := fl + (fc * (7/10)) + (bl * (1/2))
      let right := fr + (fc * (7/10)) + (br * (1/2))
      [clampQ (-1) 1 left, clampQ (-1) 1 right])

/-- Element `2*i` (resp. `2*i + 1`) of a flatMap producing two-element
blocks is the first (resp. second) component of block `i`. -/
theorem flatMap_pair_getD {α : Type} (f g : α → ℚ) (F : α → List ℚ)
    (hF : ∀ a, F a = [f a, g a]) (dflt : α) :
    ∀ (l : List α) (i : Nat), i < l.length →
      (l.flatMap F).getD (2 * i) 0 = f (l.getD i dflt) ∧
      (l.flatMap F).getD (2 * i + 1) 0 = g (l.getD i dflt)
  | [], i, h => absurd h (by simp)
  | a :: t, 0, _ => by
    rw [List.flatMap_cons, hF a]
    simp
  | a :: t, i + 1, h => by
    have hj : i < t.length := by simpa using h
    have ih := flatMap_pair_getD f g F hF dflt t i hj
    have e2 : 2 * (i + 1) = (2 * i + 1) + 1 := by omega
    rw [List.flatMap_cons, hF a]
    simp only [List.cons_append, List.nil_append, e2,
      List.getD_cons_succ, List.getD_cons_zero]
    exact ih

/-- Length of a flatMap producing two-element blocks. -/
theorem flatMap_pair_length {α : Type} (F : α → List ℚ)
    (hF : ∀ a, (F a).length = 2) (l : List α) :
    (l.flatMap F).length = 2 * l.length := by
  induction l with
  | nil => simp
  | cons a t ih =>
    rw [List.flatMap_cons, List.length_append, hF a, ih, List.length_cons]
    omega

/-- `List.range n` read at a position below `n` gives the position. -/
theorem range_getD (n i : Nat) (h : i < n) : (List.range n).getD i 0 = i := by
  rw [List.getD_eq_getElem _ _ (by simpa using h)]
  simp

/-- `clampQ` stays inside its bounds. -/
theorem clampQ_bounds (lo hi x : ℚ) (h : lo ≤ hi) :
    lo ≤ clampQ lo hi x ∧ clampQ lo hi x ≤ hi := by
  unfold clampQ
  split_ifs <;> constructor <;> linarith

/-- Claim C5 counterexample: the code uses coefficient 0.7, not the 0.707 the
spec states — a 5.1 frame FL=0 FR=0 FC=1 LFE=0 BL=0 BR=0 downmixes to
(7/10, 7/10), and 7/10 differs from the spec value 707/1000; and a mono
sample 2 outside [-1, 1] is duplicated unclamped, contradicting the claim
that every output sample is clamped. -/
theorem claim_C5_counterexample :
    downmix_to_stereo [0, 0, 1, 0, 0, 0] 6 = [7/10, 7/10] ∧
    (7 : ℚ)/10 ≠ 0 + (707/1000) * 1 + (1/2) * 0 ∧
    downmix_to_stereo [(2 : ℚ)] 1 = [2, 2] ∧
    ¬ ((2 : ℚ) ≤ 1) := by
  refine ⟨?_, by norm_num, by rfl, by norm_num⟩
  simp only [downmix_to_stereo]
  norm_num [show List.range 1 = [0] from rfl, List.flatMap_cons, List.flatMap_nil,
    clampQ, List.getD, List.get?_cons_succ, List.get?_cons_zero]

/-- Claim C5 (amended): stereo input passes through unchanged; mono input is
duplicated to both output channels without clamping; with at least three
input channels, output frame i has left channel
clamp(FL + 0.7*FC + 0.5*BL) and right channel clamp(FR + 0.7*FC + 0.5*BR)
— coefficient 0.7, not 0.707 — where the LFE sample (offset 3) does not
appear, each such output sample lies in [-1, 1], and the output holds
exactly two samples per complete input frame. -/
theorem claim_C5 :
    (∀ samples : List ℚ, downmix_to_stereo samples 2 = samples) ∧
    (∀ (samples : List ℚ) (i : Nat), i < samples.length →
      (downmix_to_stereo samples 1).getD (2 * i) 0 = samples.getD i 0 ∧
      (downmix_to_stereo samples 1).getD (2 * i + 1) 0 = samples.getD i 0) ∧
    (∀ (samples : List ℚ) (ch i : Nat), 3 ≤ ch → i < samples.length / ch →
      (downmix_to_stereo samples ch).getD (2 * i) 0 =
        clampQ (-1) 1 (samples.getD (i * ch) 0 +
          samples.getD (i * ch + 2) 0 * (7/10) +
          samples.getD (i * ch + 4) 0 * (1/2)) ∧
      (downmix_to_stereo samples ch).getD (2 * i + 1) 0 =
        clampQ (-1) 1 (samples.getD (i * ch + 1) 0 +
          samples.getD (i * ch + 2) 0 * (7/10) +
          samples.getD (i * ch + 5) 0 * (1/2)) ∧
      -1 ≤ (downmix_to_stereo samples ch).getD (2 * i) 0 ∧
      (downmix_to_stereo samples ch).getD (2 * i) 0 ≤ 1) ∧
    (∀ (samples : List ℚ) (ch : Nat), 3 ≤ ch →
      (downmix_to_stereo samples ch).length = 2 * (samples.length / ch)) := by
  have hmulti : ∀ (samples : List ℚ) (ch : Nat), 3 ≤ ch →
      downmix_to_stereo samples ch =
        (List.range (samples.length / ch)).flatMap (fun frame_idx =>
          [clampQ (-1) 1 (samples.getD (frame_idx * ch) 0 +
             samples.getD (frame_idx * ch + 2) 0 * (7/10) +
             samples.getD (frame_idx * ch + 4) 0 * (1/2)),
           clampQ (-1) 1 (samples.getD (frame_idx * ch + 1) 0 +
             samples.getD (frame_idx * ch + 2) 0 * (7/10) +
             samples.getD (frame_idx * ch + 5) 0 * (1/2))]) := by
    intro samples ch hch
    have h2 : ¬ (ch = 2) := by omega
    have h1 : ¬ (ch = 1) := by omega
    simp only [downmix_to_stereo, if_neg h2, if_neg h1]
  refine ⟨?_, ?_, ?_, ?_⟩
  · intro samples
    simp [downmix_to_stereo]
  · intro samples i hi
    have h := flatMap_pair_getD (fun s => s) (fun s => s)
      (fun sample => [sample, sample]) (fun _ => rfl) 0 samples i hi
    simpa [downmix_to_stereo] using h
  · intro samples ch i hch hi
    rw [hmulti samples ch hch]
    have h := flatMap_pair_getD
      (fun frame_idx => clampQ (-1) 1 (samples.getD (frame_idx * ch) 0 +
        samples.getD (frame_idx * ch + 2) 0 * (7/10) +
        samples.getD (frame_idx * ch + 4) 0 * (1/2)))
      (fun frame_idx => clampQ (-1) 1 (samples.getD (frame_idx * ch + 1) 0 +
        samples.getD (frame_idx * ch + 2) 0 * (7/10) +
        samples.getD (frame_idx * ch + 5) 0 * (1/2)))
      _ (fun _ => rfl) 0 (List.range (samples.length / ch)) i (by simpa using hi)
    rw [range_getD _ _ hi] at h
    refine ⟨h.1, h.2, ?_, ?_⟩
    · rw [h.1]
      exact (clampQ_bounds (-1) 1 _ (by norm_num)).1
    · rw [h.1]
      exact (clampQ_bounds (-1) 1 _ (by norm_num)).2
  · intro samples ch hch
    rw [hmulti samples ch hch]
    rw [flatMap_pair_length
      (fun frame_idx =>
        [clampQ (-1) 1 (samples.getD (frame_idx * ch) 0 +
           samples.getD (frame_idx * ch + 2) 0 * (7/10) +
           samples.getD (frame_idx * ch + 4) 0 * (1/2)),
         clampQ (-1) 1 (samples.getD (frame_idx * ch + 1) 0 +
           samples.getD (frame_idx * ch + 2) 0 * (7/10) +
           samples.getD (frame_idx * ch + 5) 0 * (1/2))])
      (fun _ => rfl)]
    simp

/-- Witness for C5: a single 6-channel frame FL=2 FR=0 FC=1 BL=0 BR=0
downmixes to left clamp(2 + 0.7) = 1 and right 0.7; a mono list is
duplicated pointwise. -/
theorem claim_C5_witness :
    ((0 : Nat) < ([(2 : ℚ), 0, 1, 0, 0, 0].length) / 6 ∧
      (downmix_to_stereo [(2 : ℚ), 0, 1, 0, 0, 0] 6).getD 0 0 =
        clampQ (-1) 1 ((2 : ℚ) + 1 * (7/10) + 0 * (1/2)) ∧
      (downmix_to_stereo [(2 : ℚ), 0, 1, 0, 0, 0] 6).getD 0 0 ≤ 1) ∧
    ((0 : Nat) < ([(3 : ℚ)].length) ∧
      (downmix_to_stereo [(3 : ℚ)] 1).getD 0 0 = 3) := by
  constructor
  · have h := claim_C5.2.2.1 [(2 : ℚ), 0, 1, 0, 0, 0] 6 0 (by norm_num) (by norm_num)
    refine ⟨by norm_num, ?_, ?_⟩
    · have h1 := h.1
      simp only [Nat.mul_zero, Nat.zero_mul, Nat.zero_add] at h1
      rw [h1]
      norm_num [List.getD, List.get?_cons_succ, List.get?_cons_zero]
    · have h4 := h.2.2.2
      simpa using h4
  · have h := (claim_C5.2.1 [(3 : ℚ)] 0 (by norm_num)).1
    refine ⟨by norm_num, ?_⟩
    simpa using h
